import Mathlib

/-!
# UI-state controller of the Magic x Celo React Native demo (`App.js`)

The component `App` owns thirteen `useState` fields and a handful of handlers
that call the identity provider (`magic`), the chain client (`web3.eth`), the
unit conversions (`web3.utils`) and the contract binding (`contract.methods`).

The embedding is explicit state passing.  A handler is split at each `await`
or `.then`: the synchronous prefix issues an external call and records it as
outstanding, and the continuation runs when the call settles.  Every issued
call is appended to a trace, and an error that leaves a handler or a callback
without being caught is appended to `uncaught`.

State setters take effect in the order in which the source calls them; values
read by a handler (`email`, `user`, `toAddress`, `amount`, `newMessage`) are the
ones of the render in which the handler was created, so a continuation that runs
after an `await` still sees the `user` of the moment the handler was invoked.
-/

namespace MagicCelo

/-! ## Data model -/

/-- The record resolved by `magic.user.getMetadata()`, as far as `App.js` reads it. -/
structure UserRecord where
  email : String
  publicAddress : String
deriving DecidableEq, Repr

/-- The `useState` fields of `App` (lines 9-27).  `user` is `''` (here `none`)
or the metadata record. -/
structure AppState where
  email : String
  user : Option UserRecord
  balance : String
  toAddress : String
  amount : String
  sendTxnBtnDisabled : Bool
  sendTxnBtnText : String
  sendTxnHash : String
  message : String
  newMessage : String
  updateContractBtnDisabled : Bool
  updateContractBtnText : String
  updateContractTxnHash : String
deriving DecidableEq, Repr

/-- The initial values passed to `useState`. -/
def initialState : AppState :=
  { email := ""
    user := none
    balance := "..."
    toAddress := ""
    amount := ""
    sendTxnBtnDisabled := false
    sendTxnBtnText := "Send"
    sendTxnHash := ""
    message := "..."
    newMessage := ""
    updateContractBtnDisabled := false
    updateContractBtnText := "Update"
    updateContractTxnHash := "" }

/-- The expression `user.publicAddress`: `undefined` (here `none`) when `user` is `''`. -/
def publicAddress (user : Option UserRecord) : Option String :=
  user.map UserRecord.publicAddress

def setEmail (t : String) (v : AppState) : AppState := { v with email := t }
def setUser (u : Option UserRecord) (v : AppState) : AppState := { v with user := u }
def setBalance (t : String) (v : AppState) : AppState := { v with balance := t }
def setToAddress (t : String) (v : AppState) : AppState := { v with toAddress := t }
def setAmount (t : String) (v : AppState) : AppState := { v with amount := t }
def setSendTxnBtnDisabled (b : Bool) (v : AppState) : AppState := { v with sendTxnBtnDisabled := b }
def setSendTxnBtnText (t : String) (v : AppState) : AppState := { v with sendTxnBtnText := t }
def setSendTxnHash (t : String) (v : AppState) : AppState := { v with sendTxnHash := t }
def setMessage (t : String) (v : AppState) : AppState := { v with message := t }
def setNewMessage (t : String) (v : AppState) : AppState := { v with newMessage := t }
def setUpdateContractBtnDisabled (b : Bool) (v : AppState) : AppState :=
  { v with updateContractBtnDisabled := b }
def setUpdateContractBtnText (t : String) (v : AppState) : AppState :=
  { v with updateContractBtnText := t }
def setUpdateContractTxnHash (t : String) (v : AppState) : AppState :=
  { v with updateContractTxnHash := t }

/-! ## External calls -/

/-- One entry of the trace: a call made to an external collaborator, with its
arguments, or a call of the platform's `alert`. -/
inductive Call
  | isLoggedIn
  | getMetadata
  | loginWithMagicLink (email : String)
  | logout
  | getBalance (address : Option String)
  | sendTransaction (sender : Option String) (toAddress : String) (value : String)
  | message
  | update (newMessage : String) (sender : Option String)
  | alert (err : String)
deriving DecidableEq, Repr

/-- An outstanding external call together with what its continuation has
captured.  `getMetadata` is called from two places with different callbacks. -/
inductive Pending
  /-- From the mount effect: `magic.user.isLoggedIn().then(isLoggedIn => ...)`. -/
  | isLoggedIn
  /-- From the mount effect: `magic.user.getMetadata().then(user => {...})`. -/
  | mountMetadata
  /-- From `login`: `await magic.auth.loginWithMagicLink({ email })`. -/
  | loginWithMagicLink (email : String)
  /-- From `login`: `magic.user.getMetadata().then(setUser)`. -/
  | loginMetadata
  /-- From `logout`: `await magic.user.logout()`. -/
  | logout
  /-- From `fetchBalance`: `web3.eth.getBalance(address).then(...)`. -/
  | getBalance (address : Option String)
  /-- From `sendTransaction`: `await web3.eth.sendTransaction({...})`; `user` is
  the value the handler closed over. -/
  | sendTransaction (user : Option UserRecord) (toAddress : String) (value : String)
  /-- From `fetchContractMessage`: `contract.methods.message().call().then(setMessage)`. -/
  | message
  /-- From `updateContractMessage`: `await contract.methods.update(newMessage).send({...})`. -/
  | update (user : Option UserRecord) (newMessage : String)
deriving DecidableEq, Repr

/-- The external call an outstanding entry stands for. -/
def Pending.call : Pending → Call
  | .isLoggedIn => .isLoggedIn
  | .mountMetadata => .getMetadata
  | .loginWithMagicLink email => .loginWithMagicLink email
  | .loginMetadata => .getMetadata
  | .logout => .logout
  | .getBalance address => .getBalance address
  | .sendTransaction user toAddress value => .sendTransaction (publicAddress user) toAddress value
  | .message => .message
  | .update user newMessage => .update newMessage (publicAddress user)

/-- How an external call settles: resolved with a value of the call's type, or
rejected with an error. -/
inductive Reply
  | unit (r : Except String Unit)
  | bool (r : Except String Bool)
  | record (r : Except String UserRecord)
  | str (r : Except String String)

/-- The conversions `web3.utils.toWei` and `web3.utils.fromWei`.  They belong to
the chain-client library, which is not part of the repository, so they are
parameters; either may throw on its argument. -/
structure Utils where
  toWei : String → Except String String
  fromWei : String → Except String String

/-- The external collaborators as an oracle: what each call settles with. -/
structure World extends Utils where
  isLoggedIn : Except String Bool
  getMetadata : Except String UserRecord
  loginWithMagicLink : String → Except String Unit
  logout : Except String Unit
  getBalance : Option String → Except String String
  sendTransaction : Option String → String → String → Except String String
  message : Except String String
  update : String → Option String → Except String String

/-- The reply the oracle gives to an outstanding call. -/
def answer (w : World) : Pending → Reply
  | .isLoggedIn => .bool w.isLoggedIn
  | .mountMetadata => .record w.getMetadata
  | .loginWithMagicLink email => .unit (w.loginWithMagicLink email)
  | .loginMetadata => .record w.getMetadata
  | .logout => .unit w.logout
  | .getBalance address => .str (w.getBalance address)
  | .sendTransaction user toAddress value => .str (w.sendTransaction (publicAddress user) toAddress value)
  | .message => .str w.message
  | .update user newMessage => .str (w.update newMessage (publicAddress user))

/-! ## The controller -/

/-- The controller together with its environment: the view fields, the calls
that have been issued and have not settled yet, every call issued so far, and
the errors that escaped uncaught. -/
structure Sys where
  view : AppState
  outstanding : List Pending
  trace : List Call
  uncaught : List String
deriving DecidableEq, Repr

/-- A controller at rest showing `v`. -/
def Sys.ofView (v : AppState) : Sys :=
  { view := v, outstanding := [], trace := [], uncaught := [] }

/-- Apply a state setter. -/
def Sys.set (f : AppState → AppState) (s : Sys) : Sys := { s with view := f s.view }

/-- Issue an external call: it becomes outstanding and enters the trace. -/
def Sys.issue (p : Pending) (s : Sys) : Sys :=
  { s with outstanding := s.outstanding ++ [p], trace := s.trace ++ [p.call] }

/-- An error leaves the running handler or callback uncaught. -/
def Sys.throw (e : String) (s : Sys) : Sys := { s with uncaught := s.uncaught ++ [e] }

/-- The call `alert(err)`. -/
def alert (err : String) (s : Sys) : Sys := { s with trace := s.trace ++ [.alert err] }

/-- `fetchBalance` (lines 58-60), up to the `.then`. -/
def fetchBalance (address : Option String) (s : Sys) : Sys := s.issue (.getBalance address)

/-- The callback `bal => setBalance(web3.utils.fromWei(bal))` of `fetchBalance`. -/
def fetchBalanceThen (u : Utils) (r : Except String String) (s : Sys) : Sys :=
  match r with
  | .error e => s.throw e
  | .ok bal =>
    match u.fromWei bal with
    | .error e => s.throw e
    | .ok t => s.set (setBalance t)

/-- `fetchContractMessage` (line 91), up to the `.then`. -/
def fetchContractMessage (s : Sys) : Sys := s.issue .message

/-- The callback `setMessage` of `fetchContractMessage`. -/
def fetchContractMessageThen (r : Except String String) (s : Sys) : Sys :=
  match r with
  | .error e => s.throw e
  | .ok m => s.set (setMessage m)

/-- The mount effect (lines 30-39), up to the first `.then`. -/
def mount (s : Sys) : Sys := s.issue .isLoggedIn

/-- The callback `isLoggedIn => {...}` of the mount effect. -/
def mountIsLoggedInThen (r : Except String Bool) (s : Sys) : Sys :=
  match r with
  | .error e => s.throw e
  | .ok false => s.set (setUser none)
  | .ok true => s.issue .mountMetadata

/-- The callback `user => {...}` of the mount effect (lines 33-37). -/
def mountMetadataThen (r : Except String UserRecord) (s : Sys) : Sys :=
  match r with
  | .error e => s.throw e
  | .ok user =>
    s |>.set (setUser (some user))
      |> fetchBalance (some user.publicAddress)
      |> fetchContractMessage

/-- `login` (lines 42-49), up to the `await`. -/
def login (s : Sys) : Sys := s.issue (.loginWithMagicLink s.view.email)

/-- `login` after the `await`: the rest of the `try` block, or the `catch`. -/
def loginResume (r : Except String Unit) (s : Sys) : Sys :=
  match r with
  | .ok _ => s.issue .loginMetadata
  | .error err => alert err s

/-- The callback `setUser` of `login` (line 45). -/
def loginMetadataThen (r : Except String UserRecord) (s : Sys) : Sys :=
  match r with
  | .error e => s.throw e
  | .ok user => s.set (setUser (some user))

/-- `logout` (lines 52-55), up to the `await`. -/
def logout (s : Sys) : Sys := s.issue .logout

/-- `logout` after the `await`. -/
def logoutResume (r : Except String Unit) (s : Sys) : Sys :=
  match r with
  | .error e => s.throw e
  | .ok _ => s.set (setUser none)

/-- `disableSendTxnForm` (lines 76-80). -/
def disableSendTxnForm (s : Sys) : Sys :=
  s |>.set (setSendTxnHash "")
    |>.set (setSendTxnBtnDisabled true)
    |>.set (setSendTxnBtnText "Pending...")

/-- `enableSendTxnForm` (lines 83-89); `user` is the value closed over. -/
def enableSendTxnForm (user : Option UserRecord) (s : Sys) : Sys :=
  s |>.set (setSendTxnBtnDisabled false)
    |>.set (setToAddress "")
    |>.set (setAmount "")
    |> fetchBalance (publicAddress user)
    |>.set (setSendTxnBtnText "Send")

/-- `sendTransaction` (lines 63-73), up to the `await`.  The argument object is
built before the call, so a throwing `toWei` ends the handler after
`disableSendTxnForm` and without a call. -/
def sendTransaction (u : Utils) (s : Sys) : Sys :=
  if s.view.amount = "" ∨ s.view.toAddress = "" then s
  else
    let s1 := disableSendTxnForm s
    match u.toWei s.view.amount with
    | .error e => s1.throw e
    | .ok value => s1.issue (.sendTransaction s.view.user s.view.toAddress value)

/-- `sendTransaction` after the `await` (lines 71-72). -/
def sendTransactionResume (user : Option UserRecord) (r : Except String String) (s : Sys) : Sys :=
  match r with
  | .error e => s.throw e
  | .ok transactionHash => s |>.set (setSendTxnHash transactionHash) |> enableSendTxnForm user

/-- `disableUpdateContractForm` (lines 101-105). -/
def disableUpdateContractForm (s : Sys) : Sys :=
  s |>.set (setUpdateContractBtnDisabled true)
    |>.set (setUpdateContractTxnHash "")
    |>.set (setUpdateContractBtnText "Pending...")

/-- `enableUpdateContractForm` (lines 107-113); `user` is the value closed over. -/
def enableUpdateContractForm (user : Option UserRecord) (s : Sys) : Sys :=
  s |>.set (setUpdateContractBtnDisabled false)
    |>.set (setNewMessage "")
    |> fetchBalance (publicAddress user)
    |> fetchContractMessage
    |>.set (setUpdateContractBtnText "Update")

/-- `updateContractMessage` (lines 93-99), up to the `await`. -/
def updateContractMessage (s : Sys) : Sys :=
  if s.view.newMessage = "" then s
  else (disableUpdateContractForm s).issue (.update s.view.user s.view.newMessage)

/-- `updateContractMessage` after the `await` (lines 97-98). -/
def updateContractMessageResume (user : Option UserRecord) (r : Except String String)
    (s : Sys) : Sys :=
  match r with
  | .error e => s.throw e
  | .ok transactionHash =>
    s |>.set (setUpdateContractTxnHash transactionHash) |> enableUpdateContractForm user

/-- Run the continuation of a call that settled with `r`; `s` no longer lists the
call as outstanding.  `none` when the reply is not of the call's type. -/
def settle (u : Utils) (p : Pending) (r : Reply) (s : Sys) : Option Sys :=
  match p, r with
  | .isLoggedIn, .bool r => some (mountIsLoggedInThen r s)
  | .mountMetadata, .record r => some (mountMetadataThen r s)
  | .loginWithMagicLink _, .unit r => some (loginResume r s)
  | .loginMetadata, .record r => some (loginMetadataThen r s)
  | .logout, .unit r => some (logoutResume r s)
  | .getBalance _, .str r => some (fetchBalanceThen u r s)
  | .sendTransaction user _ _, .str r => some (sendTransactionResume user r s)
  | .message, .str r => some (fetchContractMessageThen r s)
  | .update user _, .str r => some (updateContractMessageResume user r s)
  | _, _ => none

/-- Let the oldest outstanding call settle as the oracle says, and repeat, at
most `fuel` times; stops when nothing is outstanding. -/
def run (w : World) : Nat → Sys → Sys
  | 0, s => s
  | fuel + 1, s =>
    match s.outstanding with
    | [] => s
    | p :: rest =>
      match settle w.toUtils p (answer w p) { s with outstanding := rest } with
      | some s1 => run w fuel s1
      | none => s

/-! ## The rendered view

`App` renders the login form while `user` is `''` and the three forms otherwise
(lines 119-174).  A `Pressable` whose `disabled` prop is set does not call its
`onPress`. -/

/-- What the user or the environment can do next. -/
inductive Action
  | changeEmail (text : String)
  | pressLogin
  | pressLogout
  | changeToAddress (text : String)
  | changeAmount (text : String)
  | pressSend
  | changeNewMessage (text : String)
  | pressUpdate
  /-- The outstanding call at position `i` settles with `r`. -/
  | settled (i : Nat) (r : Reply)

/-- The Send button (line 159): rendered when logged in, `disabled={sendTxnBtnDisabled}`. -/
def pressSend (u : Utils) (s : Sys) : Sys :=
  if s.view.user.isSome ∧ s.view.sendTxnBtnDisabled = false then sendTransaction u s else s

/-- The Update button (line 169): rendered when logged in,
`disabled={updateContractBtnDisabled}`. -/
def pressUpdate (s : Sys) : Sys :=
  if s.view.user.isSome ∧ s.view.updateContractBtnDisabled = false then updateContractMessage s
  else s

/-- One step of the controller.  An action that the rendered view does not offer,
or a reply that fits no outstanding call, leaves the state as it is. -/
def step (u : Utils) (a : Action) (s : Sys) : Sys :=
  match a with
  | .changeEmail text => if s.view.user.isNone then s.set (setEmail text) else s
  | .pressLogin => if s.view.user.isNone then login s else s
  | .pressLogout => if s.view.user.isSome then logout s else s
  | .changeToAddress text => if s.view.user.isSome then s.set (setToAddress text) else s
  | .changeAmount text => if s.view.user.isSome then s.set (setAmount text) else s
  | .pressSend => pressSend u s
  | .changeNewMessage text => if s.view.user.isSome then s.set (setNewMessage text) else s
  | .pressUpdate => pressUpdate s
  | .settled i r =>
    match s.outstanding[i]? with
    | none => s
    | some p => (settle u p r { s with outstanding := s.outstanding.eraseIdx i }).getD s

/-- The controller right after the first render: the mount effect has run. -/
def boot : Sys := mount (Sys.ofView initialState)

/-- The state reached from `s` by a sequence of actions. -/
def advance (u : Utils) (s : Sys) (actions : List Action) : Sys :=
  actions.foldl (fun s a => step u a s) s

/-- The state reached from `boot` by a sequence of actions. -/
def reach (u : Utils) (actions : List Action) : Sys := advance u boot actions

/-- Whether an outstanding call is a `web3.eth.sendTransaction`. -/
def Pending.isTransfer : Pending → Bool
  | .sendTransaction _ _ _ => true
  | _ => false

/-- Whether an outstanding call is a contract write `update(...).send(...)`. -/
def Pending.isWrite : Pending → Bool
  | .update _ _ => true
  | _ => false

/-- Number of outstanding `web3.eth.sendTransaction` calls. -/
def outstandingTransfers (s : Sys) : Nat := s.outstanding.countP Pending.isTransfer

/-- Number of outstanding contract writes. -/
def outstandingWrites (s : Sys) : Nat := s.outstanding.countP Pending.isWrite

/-- Per form: at most one call outstanding, and the flag set while there is one. -/
def Guarded (s : Sys) : Prop :=
  (outstandingTransfers s ≤ 1 ∧
      (outstandingTransfers s = 1 → s.view.sendTxnBtnDisabled = true)) ∧
    (outstandingWrites s ≤ 1 ∧
      (outstandingWrites s = 1 → s.view.updateContractBtnDisabled = true))

/-- The send form is disabled and no transfer is outstanding whose completion
could enable it. -/
def SendFormStuck (s : Sys) : Prop :=
  s.view.sendTxnBtnDisabled = true ∧ outstandingTransfers s = 0

instance (s : Sys) : Decidable (Guarded s) := by
  unfold Guarded
  infer_instance

instance (s : Sys) : Decidable (SendFormStuck s) := by
  unfold SendFormStuck
  infer_instance

/-! ## Sample collaborators -/

/-- A metadata record used in the examples. -/
def alice : UserRecord := { email := "alice@example.org", publicAddress := "0xA11CE" }

/-- Conversions that accept the sample amounts. -/
def sampleUtils : Utils :=
  { toWei := fun t => if t = "1.5" then .ok "1500000000000000000" else .error "invalid number"
    fromWei := fun t => if t = "2000000000000000000" then .ok "2" else .error "invalid number" }

/-- Collaborators that accept every call; nobody is logged in at the first render. -/
def friendlyWorld : World :=
  { sampleUtils with
    isLoggedIn := .ok false
    getMetadata := .ok alice
    loginWithMagicLink := fun _ => .ok ()
    logout := .ok ()
    getBalance := fun _ => .ok "2000000000000000000"
    sendTransaction := fun _ _ _ => .ok "0xHASH1"
    message := .ok "hello"
    update := fun _ _ => .ok "0xHASH2" }

/-- Collaborators that reject every call. -/
def hostileWorld : World :=
  { sampleUtils with
    isLoggedIn := .error "offline"
    getMetadata := .error "offline"
    loginWithMagicLink := fun _ => .error "rejected"
    logout := .error "offline"
    getBalance := fun _ => .error "offline"
    sendTransaction := fun _ _ _ => .error "insufficient funds"
    message := .error "offline"
    update := fun _ _ => .error "reverted" }

/-- A logged-in view with both forms filled in. -/
def filledView : AppState :=
  { initialState with
    user := some alice
    balance := "2"
    message := "hello"
    toAddress := "0xABC"
    amount := "1.5"
    newMessage := "gm" }

/-- A logged-in, idle view whose amount field holds text that `sampleUtils.toWei`
does not convert. -/
def badAmountView : AppState := { filledView with amount := "abc" }

/-- A logged-in view that still shows the hash of an earlier transfer. -/
def staleView : AppState := { filledView with sendTxnHash := "0xOLD" }

/-- A session: the mount effect finds `alice` logged in, she fills in both forms
and presses both buttons. -/
def sampleSession : List Action :=
  [ .settled 0 (.bool (.ok true)),
    .settled 0 (.record (.ok alice)),
    .changeToAddress "0xABC",
    .changeAmount "1.5",
    .pressSend,
    .changeNewMessage "gm",
    .pressUpdate ]

end MagicCelo

namespace MagicCelo

/-! ## Running to rest -/

theorem run_rest (w : World) (n : Nat) (s : Sys) (h : s.outstanding = []) : run w n s = s := by
  cases n with
  | zero => rfl
  | succ n => simp [run, h]

theorem run_next (w : World) (n : Nat) (s s1 : Sys) (p : Pending) (rest : List Pending)
    (h : s.outstanding = p :: rest)
    (hs : settle w.toUtils p (answer w p) { s with outstanding := rest } = some s1) :
    run w (n + 1) s = run w n s1 := by
  simp [run, h, hs]

/-- The balance callback touches only `balance` and `uncaught`. -/
theorem fetchBalanceThen_frame (u : Utils) (r : Except String String) (s : Sys) :
    ∃ b errs, fetchBalanceThen u r s =
      { s with view := { s.view with balance := b }, uncaught := errs } := by
  unfold fetchBalanceThen
  cases r with
  | error e => exact ⟨s.view.balance, s.uncaught ++ [e], rfl⟩
  | ok bal =>
    cases hf : u.fromWei bal with
    | error e => exact ⟨s.view.balance, s.uncaught ++ [e], by simp only [hf]; rfl⟩
    | ok t => exact ⟨t, s.uncaught, by simp only [hf]; rfl⟩

/-- The contract-message callback touches only `message` and `uncaught`. -/
theorem fetchContractMessageThen_frame (r : Except String String) (s : Sys) :
    ∃ m errs, fetchContractMessageThen r s =
      { s with view := { s.view with message := m }, uncaught := errs } := by
  unfold fetchContractMessageThen
  cases r with
  | error e => exact ⟨s.view.message, s.uncaught ++ [e], rfl⟩
  | ok m => exact ⟨m, s.uncaught, rfl⟩

/-- Settling one outstanding balance query brings the controller to rest; only
`balance` and `uncaught` may differ afterwards. -/
theorem run_refresh_balance (w : World) (n : Nat) (s : Sys) (a : Option String)
    (h : s.outstanding = [.getBalance a]) :
    ∃ b errs, run w (n + 1) s =
      { view := { s.view with balance := b }, outstanding := [], trace := s.trace,
        uncaught := errs } := by
  rw [run_next w n s _ (.getBalance a) [] h rfl]
  obtain ⟨b, errs, hb⟩ :=
    fetchBalanceThen_frame w.toUtils (w.getBalance a) { s with outstanding := [] }
  rw [hb, run_rest _ _ _ rfl]
  exact ⟨b, errs, rfl⟩

/-- Settling an outstanding balance query and an outstanding contract read brings
the controller to rest; only `balance`, `message` and `uncaught` may differ. -/
theorem run_refresh_both (w : World) (n : Nat) (s : Sys) (a : Option String)
    (h : s.outstanding = [.getBalance a, .message]) :
    ∃ b m errs, run w (n + 2) s =
      { view := { s.view with balance := b, message := m }, outstanding := [], trace := s.trace,
        uncaught := errs } := by
  rw [run_next w (n + 1) s _ (.getBalance a) [.message] h rfl]
  obtain ⟨b, errs, hb⟩ :=
    fetchBalanceThen_frame w.toUtils (w.getBalance a) { s with outstanding := [.message] }
  rw [hb, run_next w n _ _ .message [] rfl rfl]
  obtain ⟨m, errs2, hm⟩ := fetchContractMessageThen_frame w.message
    { view := { s.view with balance := b }, outstanding := [], trace := s.trace, uncaught := errs }
  rw [run_rest]
  · exact ⟨b, m, errs2, hm⟩
  · show (fetchContractMessageThen w.message _).outstanding = []
    rw [hm]

/-! ## login -/

/-- C2: when `loginWithMagicLink` is rejected in a logged-out state, `login` comes
to rest with every view field unchanged (so the session is still absent), with
the error passed to `alert` and not propagated, and with no call other than the
rejected `loginWithMagicLink`: no `getMetadata`, no balance query, no contract read. -/
theorem login_rejected (w : World) (v : AppState) (e : String) (n : Nat)
    (huser : v.user = none) (hfail : w.loginWithMagicLink v.email = .error e) :
    run w (n + 1) (login (Sys.ofView v)) =
        { view := v
          outstanding := []
          trace := [.loginWithMagicLink v.email, .alert e]
          uncaught := [] } ∧
      (run w (n + 1) (login (Sys.ofView v))).view.user = none := by
  have h1 : run w (n + 1) (login (Sys.ofView v)) =
      { view := v, outstanding := [], trace := [.loginWithMagicLink v.email, .alert e],
        uncaught := [] } := by
    rw [run_next w n _ _ (.loginWithMagicLink v.email) [] rfl rfl]
    rw [run_rest]
    · simp [loginResume, hfail, alert, login, Sys.issue, Sys.ofView, Pending.call]
    · simp [loginResume, hfail, alert]
  exact ⟨h1, by rw [h1]; exact huser⟩

/-- Witness of C2 on the initial state with collaborators that reject every call. -/
theorem login_rejected_witness :
    initialState.user = none ∧
      hostileWorld.loginWithMagicLink initialState.email = .error "rejected" ∧
      run hostileWorld 1 (login (Sys.ofView initialState)) =
        { view := initialState
          outstanding := []
          trace := [.loginWithMagicLink "", .alert "rejected"]
          uncaught := [] } :=
  ⟨rfl, rfl, (login_rejected hostileWorld initialState "rejected" 0 rfl rfl).1⟩

/-- C1, what the code does: when `loginWithMagicLink` succeeds and `getMetadata`
resolves to `user`, `login` comes to rest with the session equal to `user`, but
the only calls it has made are `loginWithMagicLink` and `getMetadata`: there is
no balance query and no contract read, and `balance` and `message` keep the
values they had. -/
theorem login_accepted_no_refresh (w : World) (v : AppState) (user : UserRecord) (n : Nat)
    (hlogin : w.loginWithMagicLink v.email = .ok ()) (hmeta : w.getMetadata = .ok user) :
    run w (n + 2) (login (Sys.ofView v)) =
      { view := { v with user := some user }
        outstanding := []
        trace := [.loginWithMagicLink v.email, .getMetadata]
        uncaught := [] } := by
  rw [run_next w (n + 1) _ _ (.loginWithMagicLink v.email) [] rfl rfl]
  rw [run_next w n _ _ .loginMetadata [] (by simp [answer, hlogin, loginResume, Sys.issue]) rfl]
  rw [run_rest]
  · simp [answer, hlogin, hmeta, loginResume, loginMetadataThen, login, Sys.issue, Sys.ofView,
      Sys.set, setUser, Pending.call]
  · simp [answer, hlogin, hmeta, loginResume, loginMetadataThen, Sys.issue, Sys.set]

/-- The failing input of C1: a first login with collaborators that accept every
call leaves the balance and the contract message at their placeholders. -/
theorem login_accepted_no_refresh_witness :
    friendlyWorld.loginWithMagicLink initialState.email = .ok () ∧
      friendlyWorld.getMetadata = .ok alice ∧
      run friendlyWorld 2 (login (Sys.ofView initialState)) =
        { view := { initialState with user := some alice }
          outstanding := []
          trace := [.loginWithMagicLink "", .getMetadata]
          uncaught := [] } :=
  ⟨rfl, rfl, login_accepted_no_refresh friendlyWorld initialState alice 0 rfl rfl⟩

/-- The sibling path of C1: the mount effect, on the same `getMetadata` result,
sets the session and does issue one balance query for the returned address and
one contract read. -/
theorem mount_logged_in_refreshes (w : World) (v : AppState) (user : UserRecord)
    (hin : w.isLoggedIn = .ok true) (hmeta : w.getMetadata = .ok user) :
    run w 2 (mount (Sys.ofView v)) =
      { view := { v with user := some user }
        outstanding := [.getBalance (some user.publicAddress), .message]
        trace := [.isLoggedIn, .getMetadata, .getBalance (some user.publicAddress), .message]
        uncaught := [] } := by
  rw [run_next w 1 _ _ .isLoggedIn [] rfl rfl]
  rw [run_next w 0 _ _ .mountMetadata [] (by simp [answer, hin, mountIsLoggedInThen, Sys.issue]) rfl]
  simp [run, answer, hin, hmeta, mountIsLoggedInThen, mountMetadataThen, mount, Sys.issue,
    Sys.ofView, Sys.set, setUser, Pending.call, fetchBalance, fetchContractMessage]

/-- Counterexample to C9: in the initial state the email field is empty, and
`login` calls the identity provider's `loginWithMagicLink` with that empty email. -/
theorem login_empty_email_calls_provider :
    initialState.email = "" ∧
      Call.loginWithMagicLink "" ∈ (login (Sys.ofView initialState)).trace ∧
      (login (Sys.ofView initialState)).outstanding = [.loginWithMagicLink ""] := by
  decide

/-- C9 as amended: `login` does not test the email.  With an empty email it makes
exactly one `loginWithMagicLink` call, carrying the empty email; when the
identity provider rejects that call, the error goes to `alert`, no `getMetadata`
call is made and every view field, the session included, is unchanged. -/
theorem login_empty_email (w : World) (v : AppState) (e : String) (n : Nat)
    (hempty : v.email = "") (hfail : w.loginWithMagicLink "" = .error e) :
    (login (Sys.ofView v)).trace = [.loginWithMagicLink ""] ∧
      run w (n + 1) (login (Sys.ofView v)) =
        { view := v
          outstanding := []
          trace := [.loginWithMagicLink "", .alert e]
          uncaught := [] } := by
  refine ⟨by simp [login, Sys.issue, Sys.ofView, Pending.call, hempty], ?_⟩
  rw [run_next w n _ _ (.loginWithMagicLink v.email) [] rfl rfl]
  rw [run_rest]
  · simp [loginResume, hempty, hfail, alert, login, Sys.issue, Sys.ofView, Pending.call, answer]
  · simp [loginResume, hempty, hfail, alert, answer]

/-- Witness of the amended C9 on the initial state. -/
theorem login_empty_email_witness :
    initialState.email = "" ∧ hostileWorld.loginWithMagicLink "" = .error "rejected" ∧
      run hostileWorld 1 (login (Sys.ofView initialState)) =
        { view := initialState
          outstanding := []
          trace := [.loginWithMagicLink "", .alert "rejected"]
          uncaught := [] } :=
  ⟨rfl, rfl, (login_empty_email hostileWorld initialState "rejected" 0 rfl rfl).2⟩

/-! ## logout -/

/-- Counterexample to C7: after a successful `logout` the balance, the contract
message and a transaction hash of the session are still there, and after a
rejected `logout` the session itself is still present. -/
theorem logout_keeps_views :
    (run friendlyWorld 1 (logout (Sys.ofView staleView))).view.user = none ∧
      (run friendlyWorld 1 (logout (Sys.ofView staleView))).view.balance = "2" ∧
      (run friendlyWorld 1 (logout (Sys.ofView staleView))).view.message = "hello" ∧
      (run friendlyWorld 1 (logout (Sys.ofView staleView))).view.sendTxnHash = "0xOLD" ∧
      (run hostileWorld 1 (logout (Sys.ofView staleView))).view.user = some alice ∧
      (run hostileWorld 1 (logout (Sys.ofView staleView))).outstanding = [] := by
  decide

/-- C7 as amended: `logout` calls the identity provider's `logout` once.  When
the call succeeds, `logout` comes to rest with the session absent and every
other field as it was (balance, contract message and transaction hashes are not
reset).  When the call is rejected, the error propagates and no field changes. -/
theorem logout_clears_session_only (w : World) (v : AppState) (n : Nat) :
    (w.logout = .ok () →
        run w (n + 1) (logout (Sys.ofView v)) =
          { view := { v with user := none }
            outstanding := []
            trace := [.logout]
            uncaught := [] }) ∧
      (∀ e, w.logout = .error e →
        run w (n + 1) (logout (Sys.ofView v)) =
          { view := v
            outstanding := []
            trace := [.logout]
            uncaught := [e] }) := by
  constructor
  · intro h
    rw [run_next w n _ _ .logout [] rfl rfl, run_rest]
    · simp [answer, h, logoutResume, logout, Sys.issue, Sys.ofView, Sys.set, setUser, Pending.call]
    · simp [answer, h, logoutResume, Sys.set]
  · intro e h
    rw [run_next w n _ _ .logout [] rfl rfl, run_rest]
    · simp [answer, h, logoutResume, logout, Sys.issue, Sys.ofView, Sys.throw, Pending.call]
    · simp [answer, h, logoutResume, Sys.throw]

/-- Witness of the amended C7 with an accepting and a rejecting identity provider. -/
theorem logout_clears_session_only_witness :
    run friendlyWorld 1 (logout (Sys.ofView filledView)) =
        { view := { filledView with user := none }
          outstanding := []
          trace := [.logout]
          uncaught := [] } ∧
      run hostileWorld 1 (logout (Sys.ofView filledView)) =
        { view := filledView
          outstanding := []
          trace := [.logout]
          uncaught := ["offline"] } :=
  ⟨(logout_clears_session_only friendlyWorld filledView 0).1 rfl,
    (logout_clears_session_only hostileWorld filledView 0).2 "offline" rfl⟩

/-! ## sendTransaction -/

/-- C3: with an empty recipient or an empty amount, `sendTransaction` returns the
state it was given: no field changes (in particular `sendTxnBtnDisabled`,
`sendTxnBtnText` and `sendTxnHash`), nothing is added to the trace (no
`sendTransaction`, no `getBalance`) and nothing becomes outstanding. -/
theorem sendTransaction_empty_field (u : Utils) (s : Sys)
    (h : s.view.toAddress = "" ∨ s.view.amount = "") :
    sendTransaction u s = s ∧
      (sendTransaction u s).trace = s.trace ∧
      (sendTransaction u s).outstanding = s.outstanding ∧
      (sendTransaction u s).view.sendTxnBtnDisabled = s.view.sendTxnBtnDisabled ∧
      (sendTransaction u s).view.sendTxnBtnText = s.view.sendTxnBtnText ∧
      (sendTransaction u s).view.sendTxnHash = s.view.sendTxnHash := by
  have h1 : sendTransaction u s = s := by
    unfold sendTransaction
    rw [if_pos h.symm]
  simp [h1]

/-- Witness of C3: a recipient is typed, the amount is empty. -/
theorem sendTransaction_empty_field_witness :
    sendTransaction sampleUtils (Sys.ofView { filledView with amount := "" }) =
      Sys.ofView { filledView with amount := "" } :=
  (sendTransaction_empty_field sampleUtils (Sys.ofView { filledView with amount := "" })
    (Or.inr rfl)).1

/-- Counterexample to C4: an idle state with recipient `0xABC` and amount `abc`,
and a chain client that resolves every transfer.  `toWei` throws on the amount
while the argument object is built, so no transfer is submitted: the handler ends
after `disableSendTxnForm` with the form disabled, the hash empty, an empty trace
and the conversion error uncaught, and the controller is already at rest. -/
theorem sendTransaction_unconvertible_amount :
    badAmountView.sendTxnBtnDisabled = false ∧
      badAmountView.toAddress = "0xABC" ∧ badAmountView.amount = "abc" ∧
      friendlyWorld.sendTransaction (some "0xA11CE") "0xABC" "abc" = .ok "0xHASH1" ∧
      sendTransaction friendlyWorld.toUtils (Sys.ofView badAmountView) =
        { view := { badAmountView with sendTxnHash := "", sendTxnBtnDisabled := true,
                                       sendTxnBtnText := "Pending..." }
          outstanding := []
          trace := []
          uncaught := ["invalid number"] } ∧
      (run friendlyWorld 2
          (sendTransaction friendlyWorld.toUtils (Sys.ofView badAmountView))).trace = [] ∧
      (run friendlyWorld 2
          (sendTransaction friendlyWorld.toUtils
            (Sys.ofView badAmountView))).view.sendTxnBtnDisabled = true :=
  ⟨rfl, rfl, rfl, rfl, by decide, by decide, by decide⟩

/-- C4 as amended: from an idle state with a recipient and an amount that `toWei`
converts to `value`, when the chain client resolves the transfer with hash `h`:
`sendTransaction` first leaves the form disabled with the hash cleared and one
transfer `{from: user.publicAddress, to: toAddress, value}` outstanding; when
that call settles the form is enabled again, the hash is `h`, and one balance
query for `user.publicAddress` has been issued after the transfer; at rest the
flag and the hash are the same and the trace holds exactly these two calls. -/
theorem sendTransaction_accepted (w : World) (v : AppState) (value h : String) (n : Nat)
    (hidle : v.sendTxnBtnDisabled = false)
    (hto : v.toAddress ≠ "") (hamount : v.amount ≠ "")
    (hwei : w.toWei v.amount = .ok value)
    (hsend : w.sendTransaction (publicAddress v.user) v.toAddress value = .ok h) :
    (Sys.ofView v).view.sendTxnBtnDisabled = false ∧
      sendTransaction w.toUtils (Sys.ofView v) =
        { view := { v with sendTxnHash := "", sendTxnBtnDisabled := true,
                           sendTxnBtnText := "Pending..." }
          outstanding := [.sendTransaction v.user v.toAddress value]
          trace := [.sendTransaction (publicAddress v.user) v.toAddress value]
          uncaught := [] } ∧
      run w 1 (sendTransaction w.toUtils (Sys.ofView v)) =
        { view := { v with sendTxnHash := h, sendTxnBtnDisabled := false,
                           sendTxnBtnText := "Send", toAddress := "", amount := "" }
          outstanding := [.getBalance (publicAddress v.user)]
          trace := [.sendTransaction (publicAddress v.user) v.toAddress value,
                    .getBalance (publicAddress v.user)]
          uncaught := [] } ∧
      (run w (n + 2) (sendTransaction w.toUtils (Sys.ofView v))).outstanding = [] ∧
      (run w (n + 2) (sendTransaction w.toUtils (Sys.ofView v))).view.sendTxnBtnDisabled = false ∧
      (run w (n + 2) (sendTransaction w.toUtils (Sys.ofView v))).view.sendTxnHash = h ∧
      (run w (n + 2) (sendTransaction w.toUtils (Sys.ofView v))).trace =
        [.sendTransaction (publicAddress v.user) v.toAddress value,
         .getBalance (publicAddress v.user)] := by
  have h0 : sendTransaction w.toUtils (Sys.ofView v) =
      { view := { v with sendTxnHash := "", sendTxnBtnDisabled := true,
                         sendTxnBtnText := "Pending..." }
        outstanding := [.sendTransaction v.user v.toAddress value]
        trace := [.sendTransaction (publicAddress v.user) v.toAddress value]
        uncaught := [] } := by
    simp [sendTransaction, Sys.ofView, hto, hamount, hwei, disableSendTxnForm, Sys.set, Sys.issue,
      setSendTxnHash, setSendTxnBtnDisabled, setSendTxnBtnText, Pending.call]
  have h1 : settle w.toUtils (.sendTransaction v.user v.toAddress value)
      (answer w (.sendTransaction v.user v.toAddress value))
      { view := { v with sendTxnHash := "", sendTxnBtnDisabled := true,
                         sendTxnBtnText := "Pending..." }
        outstanding := []
        trace := [.sendTransaction (publicAddress v.user) v.toAddress value]
        uncaught := [] } =
      some
        { view := { v with sendTxnHash := h, sendTxnBtnDisabled := false,
                           sendTxnBtnText := "Send", toAddress := "", amount := "" }
          outstanding := [.getBalance (publicAddress v.user)]
          trace := [.sendTransaction (publicAddress v.user) v.toAddress value,
                    .getBalance (publicAddress v.user)]
          uncaught := [] } := by
    simp [settle, answer, hsend, sendTransactionResume, enableSendTxnForm, fetchBalance, Sys.set,
      Sys.issue, setSendTxnHash, setSendTxnBtnDisabled, setSendTxnBtnText, setToAddress,
      setAmount, Pending.call]
  refine ⟨hidle, h0, ?_, ?_⟩
  · rw [h0, run_next w 0 _ _ _ [] rfl h1]
    rfl
  · rw [h0, run_next w (n + 1) _ _ _ [] rfl h1]
    obtain ⟨b, errs, hr⟩ := run_refresh_balance w n
      { view := { v with sendTxnHash := h, sendTxnBtnDisabled := false,
                         sendTxnBtnText := "Send", toAddress := "", amount := "" }
        outstanding := [.getBalance (publicAddress v.user)]
        trace := [.sendTransaction (publicAddress v.user) v.toAddress value,
                  .getBalance (publicAddress v.user)]
        uncaught := [] } (publicAddress v.user) rfl
    rw [hr]
    exact ⟨rfl, rfl, rfl, rfl⟩

/-- Witness of the amended C4 with `toAddress = "0xABC"` and `amount = "1.5"`. -/
theorem sendTransaction_accepted_witness :
    filledView.toAddress = "0xABC" ∧ filledView.amount = "1.5" ∧
      (sendTransaction friendlyWorld.toUtils (Sys.ofView filledView)).view.sendTxnBtnDisabled
        = true ∧
      run friendlyWorld 1 (sendTransaction friendlyWorld.toUtils (Sys.ofView filledView)) =
        { view := { filledView with sendTxnHash := "0xHASH1", sendTxnBtnDisabled := false,
                                    sendTxnBtnText := "Send", toAddress := "", amount := "" }
          outstanding := [.getBalance (some "0xA11CE")]
          trace := [.sendTransaction (some "0xA11CE") "0xABC" "1500000000000000000",
                    .getBalance (some "0xA11CE")]
          uncaught := [] } ∧
      (run friendlyWorld 2
          (sendTransaction friendlyWorld.toUtils (Sys.ofView filledView))).view.sendTxnHash
        = "0xHASH1" :=
  have h := sendTransaction_accepted friendlyWorld filledView "1500000000000000000" "0xHASH1" 0
    rfl (by decide) (by decide) rfl rfl
  ⟨rfl, rfl, by rw [h.2.1], h.2.2.1, h.2.2.2.2.2.1⟩

/-! ## updateContractMessage -/

/-- C6: with an empty `newMessage`, `updateContractMessage` returns the state it
was given: no field changes, nothing is added to the trace (no contract write,
no other call) and nothing becomes outstanding. -/
theorem updateContractMessage_empty (s : Sys) (h : s.view.newMessage = "") :
    updateContractMessage s = s ∧
      (updateContractMessage s).trace = s.trace ∧
      (updateContractMessage s).outstanding = s.outstanding := by
  have h1 : updateContractMessage s = s := by
    unfold updateContractMessage
    rw [if_pos h]
  simp [h1]

/-- Witness of C6: a logged-in state whose message field is empty. -/
theorem updateContractMessage_empty_witness :
    updateContractMessage (Sys.ofView { filledView with newMessage := "" }) =
      Sys.ofView { filledView with newMessage := "" } :=
  (updateContractMessage_empty (Sys.ofView { filledView with newMessage := "" }) rfl).1

/-- C5: from an idle state with a non-empty `newMessage`, when the contract
binding resolves the write with hash `h`: `updateContractMessage` first leaves
the form disabled with the hash cleared and one write `update(newMessage)` from
`user.publicAddress` outstanding; when that call settles the form is enabled
again, the hash is `h`, and one balance query and one contract read have been
issued after the write; at rest the flag and the hash are the same and the trace
holds exactly these three calls. -/
theorem updateContractMessage_accepted (w : World) (v : AppState) (h : String) (n : Nat)
    (hidle : v.updateContractBtnDisabled = false)
    (hmsg : v.newMessage ≠ "")
    (hsend : w.update v.newMessage (publicAddress v.user) = .ok h) :
    (Sys.ofView v).view.updateContractBtnDisabled = false ∧
      updateContractMessage (Sys.ofView v) =
        { view := { v with updateContractBtnDisabled := true, updateContractTxnHash := "",
                           updateContractBtnText := "Pending..." }
          outstanding := [.update v.user v.newMessage]
          trace := [.update v.newMessage (publicAddress v.user)]
          uncaught := [] } ∧
      run w 1 (updateContractMessage (Sys.ofView v)) =
        { view := { v with updateContractBtnDisabled := false, updateContractTxnHash := h,
                           updateContractBtnText := "Update", newMessage := "" }
          outstanding := [.getBalance (publicAddress v.user), .message]
          trace := [.update v.newMessage (publicAddress v.user),
                    .getBalance (publicAddress v.user), .message]
          uncaught := [] } ∧
      (run w (n + 3) (updateContractMessage (Sys.ofView v))).outstanding = [] ∧
      (run w (n + 3) (updateContractMessage (Sys.ofView v))).view.updateContractBtnDisabled
        = false ∧
      (run w (n + 3) (updateContractMessage (Sys.ofView v))).view.updateContractTxnHash = h ∧
      (run w (n + 3) (updateContractMessage (Sys.ofView v))).trace =
        [.update v.newMessage (publicAddress v.user),
         .getBalance (publicAddress v.user), .message] := by
  have h0 : updateContractMessage (Sys.ofView v) =
      { view := { v with updateContractBtnDisabled := true, updateContractTxnHash := "",
                         updateContractBtnText := "Pending..." }
        outstanding := [.update v.user v.newMessage]
        trace := [.update v.newMessage (publicAddress v.user)]
        uncaught := [] } := by
    simp [updateContractMessage, Sys.ofView, hmsg, disableUpdateContractForm, Sys.set, Sys.issue,
      setUpdateContractBtnDisabled, setUpdateContractTxnHash, setUpdateContractBtnText,
      Pending.call]
  have h1 : settle w.toUtils (.update v.user v.newMessage) (answer w (.update v.user v.newMessage))
      { view := { v with updateContractBtnDisabled := true, updateContractTxnHash := "",
                         updateContractBtnText := "Pending..." }
        outstanding := []
        trace := [.update v.newMessage (publicAddress v.user)]
        uncaught := [] } =
      some
        { view := { v with updateContractBtnDisabled := false, updateContractTxnHash := h,
                           updateContractBtnText := "Update", newMessage := "" }
          outstanding := [.getBalance (publicAddress v.user), .message]
          trace := [.update v.newMessage (publicAddress v.user),
                    .getBalance (publicAddress v.user), .message]
          uncaught := [] } := by
    simp [settle, answer, hsend, updateContractMessageResume, enableUpdateContractForm,
      fetchBalance, fetchContractMessage, Sys.set, Sys.issue, setUpdateContractBtnDisabled,
      setUpdateContractTxnHash, setUpdateContractBtnText, setNewMessage, Pending.call]
  refine ⟨hidle, h0, ?_, ?_⟩
  · rw [h0, run_next w 0 _ _ _ [] rfl h1]
    rfl
  · rw [h0, run_next w (n + 2) _ _ _ [] rfl h1]
    obtain ⟨b, m, errs, hr⟩ := run_refresh_both w n
      { view := { v with updateContractBtnDisabled := false, updateContractTxnHash := h,
                         updateContractBtnText := "Update", newMessage := "" }
        outstanding := [.getBalance (publicAddress v.user), .message]
        trace := [.update v.newMessage (publicAddress v.user),
                  .getBalance (publicAddress v.user), .message]
        uncaught := [] } (publicAddress v.user) rfl
    rw [hr]
    exact ⟨rfl, rfl, rfl, rfl⟩

/-- Witness of C5: the message `gm` is written by `alice`. -/
theorem updateContractMessage_accepted_witness :
    (updateContractMessage (Sys.ofView filledView)).view.updateContractBtnDisabled = true ∧
      run friendlyWorld 1 (updateContractMessage (Sys.ofView filledView)) =
        { view := { filledView with updateContractBtnDisabled := false,
                                    updateContractTxnHash := "0xHASH2",
                                    updateContractBtnText := "Update", newMessage := "" }
          outstanding := [.getBalance (some "0xA11CE"), .message]
          trace := [.update "gm" (some "0xA11CE"), .getBalance (some "0xA11CE"), .message]
          uncaught := [] } ∧
      (run friendlyWorld 3 (updateContractMessage (Sys.ofView filledView))).trace =
        [.update "gm" (some "0xA11CE"), .getBalance (some "0xA11CE"), .message] :=
  have h := updateContractMessage_accepted friendlyWorld filledView "0xHASH2" 0
    rfl (by decide) rfl
  ⟨by rw [h.2.1], h.2.2.1, h.2.2.2.2.2.2⟩

/-! ## At most one operation in flight per form -/

/-- Counterexample to C8: the handlers do not look at the pending flags.  Invoked
in the state their own first invocation left (flag set, call outstanding), each
submits a second call; the same happens in the reachable state of
`sampleSession`, where both flags are set. -/
theorem handlers_ignore_pending_flag :
    (sendTransaction sampleUtils (Sys.ofView filledView)).view.sendTxnBtnDisabled = true ∧
      outstandingTransfers (sendTransaction sampleUtils (Sys.ofView filledView)) = 1 ∧
      outstandingTransfers
        (sendTransaction sampleUtils (sendTransaction sampleUtils (Sys.ofView filledView))) = 2 ∧
      (updateContractMessage (Sys.ofView filledView)).view.updateContractBtnDisabled = true ∧
      outstandingWrites (updateContractMessage (Sys.ofView filledView)) = 1 ∧
      outstandingWrites (updateContractMessage (updateContractMessage (Sys.ofView filledView)))
        = 2 ∧
      (reach sampleUtils sampleSession).view.sendTxnBtnDisabled = true ∧
      outstandingTransfers (sendTransaction sampleUtils (reach sampleUtils sampleSession)) = 2 ∧
      (reach sampleUtils sampleSession).view.updateContractBtnDisabled = true ∧
      outstandingWrites (updateContractMessage (reach sampleUtils sampleSession)) = 2 := by
  decide

theorem countP_eraseIdx_of_getElem? (q : Pending → Bool) (l : List Pending) (i : Nat)
    (p : Pending) (h : l[i]? = some p) :
    l.countP q = (l.eraseIdx i).countP q + (if q p then 1 else 0) := by
  induction l generalizing i with
  | nil => simp at h
  | cons a l ih =>
    cases i with
    | zero =>
      simp at h
      subst h
      simp [List.countP_cons]
    | succ i =>
      simp at h
      simp [List.countP_cons, ih i h]
      omega

/-- A continuation issues neither a transfer nor a contract write, and changes a
pending flag only when it is the continuation of that form's own call. -/
theorem settle_frame (u : Utils) (p : Pending) (r : Reply) (s s1 : Sys)
    (hs : settle u p r s = some s1) :
    outstandingTransfers s1 = outstandingTransfers s ∧
      outstandingWrites s1 = outstandingWrites s ∧
      (p.isTransfer = false → s1.view.sendTxnBtnDisabled = s.view.sendTxnBtnDisabled) ∧
      (p.isWrite = false →
        s1.view.updateContractBtnDisabled = s.view.updateContractBtnDisabled) := by
  cases p <;> cases r <;> simp only [settle, Option.some.injEq, reduceCtorEq] at hs <;>
    subst hs <;> rename_i r <;> rcases r with e | x
  all_goals
    first
      | (obtain ⟨b, errs, hb⟩ := fetchBalanceThen_frame u (.error e) s
         rw [hb]
         simp [outstandingTransfers, outstandingWrites])
      | (obtain ⟨b, errs, hb⟩ := fetchBalanceThen_frame u (.ok x) s
         rw [hb]
         simp [outstandingTransfers, outstandingWrites])
      | (simp [mountIsLoggedInThen, mountMetadataThen, loginResume, loginMetadataThen,
          logoutResume, sendTransactionResume, fetchContractMessageThen,
          updateContractMessageResume, enableSendTxnForm, enableUpdateContractForm,
          fetchBalance, fetchContractMessage, alert, Sys.set, Sys.issue, Sys.throw, setUser,
          setMessage, setSendTxnHash, setSendTxnBtnDisabled, setSendTxnBtnText, setToAddress,
          setAmount, setUpdateContractTxnHash, setUpdateContractBtnDisabled,
          setUpdateContractBtnText, setNewMessage, outstandingTransfers, outstandingWrites,
          Pending.isTransfer, Pending.isWrite]
         done)
      | (cases x <;>
          simp [mountIsLoggedInThen, Sys.set, Sys.issue, setUser, outstandingTransfers,
            outstandingWrites, Pending.isTransfer, Pending.isWrite])

theorem boot_guarded : Guarded boot := by
  simp [Guarded, boot, mount, Sys.issue, Sys.ofView, outstandingTransfers, outstandingWrites,
    Pending.isTransfer, Pending.isWrite]

theorem pressSend_guarded (u : Utils) (s : Sys) (h : Guarded s) : Guarded (pressSend u s) := by
  obtain ⟨⟨ht, hft⟩, hw⟩ := h
  unfold pressSend
  split
  · rename_i hc
    unfold sendTransaction
    split
    · exact ⟨⟨ht, hft⟩, hw⟩
    · have h0 : outstandingTransfers s = 0 := by
        have : outstandingTransfers s ≠ 1 := fun h1 => by
          have := hft h1
          rw [hc.2] at this
          exact Bool.noConfusion this
        omega
      cases hwei : u.toWei s.view.amount with
      | error e =>
        refine ⟨⟨?_, fun _ => rfl⟩, hw⟩
        show outstandingTransfers s ≤ 1
        exact ht
      | ok value =>
        refine ⟨⟨?_, fun _ => rfl⟩, ?_⟩
        · show (s.outstanding ++ [_]).countP Pending.isTransfer ≤ 1
          rw [List.countP_append]
          have : s.outstanding.countP Pending.isTransfer = 0 := h0
          simp [this, Pending.isTransfer]
        · have : outstandingWrites
              ((disableSendTxnForm s).issue (.sendTransaction s.view.user s.view.toAddress value))
              = outstandingWrites s := by
            simp [outstandingWrites, Sys.issue, disableSendTxnForm, Sys.set, Pending.isWrite]
          rw [this]
          exact hw
  · exact ⟨⟨ht, hft⟩, hw⟩

theorem pressUpdate_guarded (s : Sys) (h : Guarded s) : Guarded (pressUpdate s) := by
  obtain ⟨ht, ⟨hw, hfw⟩⟩ := h
  unfold pressUpdate
  split
  · rename_i hc
    unfold updateContractMessage
    split
    · exact ⟨ht, ⟨hw, hfw⟩⟩
    · have h0 : outstandingWrites s = 0 := by
        have : outstandingWrites s ≠ 1 := fun h1 => by
          have := hfw h1
          rw [hc.2] at this
          exact Bool.noConfusion this
        omega
      refine ⟨?_, ⟨?_, fun _ => rfl⟩⟩
      · have : outstandingTransfers
            ((disableUpdateContractForm s).issue (.update s.view.user s.view.newMessage))
            = outstandingTransfers s := by
          simp [outstandingTransfers, Sys.issue, disableUpdateContractForm, Sys.set,
            Pending.isTransfer]
        rw [this]
        exact ht
      · show (s.outstanding ++ [_]).countP Pending.isWrite ≤ 1
        rw [List.countP_append]
        have : s.outstanding.countP Pending.isWrite = 0 := h0
        simp [this, Pending.isWrite]
  · exact ⟨ht, ⟨hw, hfw⟩⟩

theorem settled_guarded (u : Utils) (i : Nat) (r : Reply) (s : Sys) (h : Guarded s) :
    Guarded (step u (.settled i r) s) := by
  cases hp : s.outstanding[i]? with
  | none =>
    have hstep : step u (.settled i r) s = s := by simp [step, hp]
    rw [hstep]
    exact h
  | some p =>
    cases hs : settle u p r { s with outstanding := s.outstanding.eraseIdx i } with
    | none =>
      have hstep : step u (.settled i r) s = s := by simp [step, hp, hs]
      rw [hstep]
      exact h
    | some s1 =>
      have hstep : step u (.settled i r) s = s1 := by simp [step, hp, hs]
      rw [hstep]
      obtain ⟨hT, hW, hfT, hfW⟩ := settle_frame u p r _ s1 hs
      have cT := countP_eraseIdx_of_getElem? Pending.isTransfer s.outstanding i p hp
      have cW := countP_eraseIdx_of_getElem? Pending.isWrite s.outstanding i p hp
      obtain ⟨⟨ht, hft⟩, ⟨hw, hfw⟩⟩ := h
      simp only [outstandingTransfers, outstandingWrites] at hT hW ht hft hw hfw
      refine ⟨⟨?_, ?_⟩, ⟨?_, ?_⟩⟩
      · show s1.outstanding.countP Pending.isTransfer ≤ 1
        omega
      · intro h1
        have h1 : s1.outstanding.countP Pending.isTransfer = 1 := h1
        cases hq : p.isTransfer with
        | true => simp [hq] at cT; omega
        | false =>
          simp [hq] at cT
          rw [hfT hq]
          exact hft (by omega)
      · show s1.outstanding.countP Pending.isWrite ≤ 1
        omega
      · intro h1
        have h1 : s1.outstanding.countP Pending.isWrite = 1 := h1
        cases hq : p.isWrite with
        | true => simp [hq] at cW; omega
        | false =>
          simp [hq] at cW
          rw [hfW hq]
          exact hfw (by omega)

theorem step_guarded (u : Utils) (a : Action) (s : Sys) (h : Guarded s) :
    Guarded (step u a s) := by
  cases a with
  | pressSend => exact pressSend_guarded u s h
  | pressUpdate => exact pressUpdate_guarded s h
  | settled i r => exact settled_guarded u i r s h
  | pressLogin =>
    simp only [step]
    split
    · simpa [Guarded, login, Sys.issue, outstandingTransfers, outstandingWrites,
        Pending.isTransfer, Pending.isWrite] using h
    · exact h
  | pressLogout =>
    simp only [step]
    split
    · simpa [Guarded, logout, Sys.issue, outstandingTransfers, outstandingWrites,
        Pending.isTransfer, Pending.isWrite] using h
    · exact h
  | changeEmail text => simp only [step]; split <;> exact h
  | changeToAddress text => simp only [step]; split <;> exact h
  | changeAmount text => simp only [step]; split <;> exact h
  | changeNewMessage text => simp only [step]; split <;> exact h

theorem reach_guarded (u : Utils) (actions : List Action) : Guarded (reach u actions) := by
  unfold reach advance
  induction actions using List.reverseRecOn with
  | nil => exact boot_guarded
  | append_singleton l a ih =>
    rw [List.foldl_append]
    exact step_guarded u a _ ih

/-- C8 as amended: through the rendered view at most one operation is in flight
per form.  In every state reachable from the first render by edits, button
presses and settling calls there is at most one outstanding transfer and at most
one outstanding contract write, the form's flag is set while its call is
outstanding, and a press of a button whose flag is set changes nothing (it
submits no call).  The guard is the `disabled` prop of the button; the handlers
themselves do not test the flag. -/
theorem one_in_flight_per_form (u : Utils) (actions : List Action) :
    outstandingTransfers (reach u actions) ≤ 1 ∧
      outstandingWrites (reach u actions) ≤ 1 ∧
      (outstandingTransfers (reach u actions) = 1 →
        (reach u actions).view.sendTxnBtnDisabled = true) ∧
      (outstandingWrites (reach u actions) = 1 →
        (reach u actions).view.updateContractBtnDisabled = true) ∧
      ((reach u actions).view.sendTxnBtnDisabled = true →
        step u .pressSend (reach u actions) = reach u actions) ∧
      ((reach u actions).view.updateContractBtnDisabled = true →
        step u .pressUpdate (reach u actions) = reach u actions) := by
  obtain ⟨⟨ht, hft⟩, ⟨hw, hfw⟩⟩ := reach_guarded u actions
  refine ⟨ht, hw, hft, hfw, ?_, ?_⟩
  · intro hd
    simp [step, pressSend, hd]
  · intro hd
    simp [step, pressUpdate, hd]

/-- Witness of the amended C8: in `sampleSession` both calls are outstanding, and
pressing either button again changes nothing. -/
theorem one_in_flight_per_form_witness :
    outstandingTransfers (reach sampleUtils sampleSession) = 1 ∧
      outstandingWrites (reach sampleUtils sampleSession) = 1 ∧
      step sampleUtils .pressSend (reach sampleUtils sampleSession)
        = reach sampleUtils sampleSession ∧
      step sampleUtils .pressUpdate (reach sampleUtils sampleSession)
        = reach sampleUtils sampleSession :=
  have h := one_in_flight_per_form sampleUtils sampleSession
  ⟨by decide, by decide, h.2.2.2.2.1 (by decide), h.2.2.2.2.2 (by decide)⟩

/-! ## A rejected transfer -/

theorem step_stuck (u : Utils) (a : Action) (s : Sys) (h : SendFormStuck s) :
    SendFormStuck (step u a s) := by
  cases a with
  | pressSend =>
    have hstep : step u .pressSend s = s := by simp [step, pressSend, h.1]
    rw [hstep]
    exact h
  | pressUpdate =>
    simp only [step, pressUpdate]
    split
    · unfold updateContractMessage
      split
      · exact h
      · refine ⟨h.1, ?_⟩
        have h0 : s.outstanding.countP Pending.isTransfer = 0 := h.2
        simp [outstandingTransfers, Sys.issue, disableUpdateContractForm, Sys.set,
          Pending.isTransfer, h0]
    · exact h
  | settled i r =>
    cases hp : s.outstanding[i]? with
    | none =>
      have hstep : step u (.settled i r) s = s := by simp [step, hp]
      rw [hstep]
      exact h
    | some p =>
      cases hs : settle u p r { s with outstanding := s.outstanding.eraseIdx i } with
      | none =>
        have hstep : step u (.settled i r) s = s := by simp [step, hp, hs]
        rw [hstep]
        exact h
      | some s1 =>
        have hstep : step u (.settled i r) s = s1 := by simp [step, hp, hs]
        rw [hstep]
        obtain ⟨hT, _, hfT, _⟩ := settle_frame u p r _ s1 hs
        have cT := countP_eraseIdx_of_getElem? Pending.isTransfer s.outstanding i p hp
        have h0 : s.outstanding.countP Pending.isTransfer = 0 := h.2
        simp only [outstandingTransfers] at hT
        cases hq : p.isTransfer with
        | true => simp [hq] at cT; omega
        | false =>
          simp [hq] at cT
          refine ⟨?_, ?_⟩
          · rw [hfT hq]
            exact h.1
          · show s1.outstanding.countP Pending.isTransfer = 0
            omega
  | pressLogin =>
    simp only [step]
    split
    · simpa [SendFormStuck, login, Sys.issue, outstandingTransfers, Pending.isTransfer] using h
    · exact h
  | pressLogout =>
    simp only [step]
    split
    · simpa [SendFormStuck, logout, Sys.issue, outstandingTransfers, Pending.isTransfer] using h
    · exact h
  | changeEmail text => simp only [step]; split <;> exact h
  | changeToAddress text => simp only [step]; split <;> exact h
  | changeAmount text => simp only [step]; split <;> exact h
  | changeNewMessage text => simp only [step]; split <;> exact h

theorem advance_stuck (u : Utils) (s : Sys) (actions : List Action) (h : SendFormStuck s) :
    SendFormStuck (advance u s actions) := by
  unfold advance
  induction actions generalizing s with
  | nil => exact h
  | cons a l ih => exact ih (step u a s) (step_stuck u a s h)

/-- Counterexample to C10: recipient `0xABC`, amount `abc`, and a chain client
that rejects every transfer with `insufficient funds`.  `toWei` throws on the
amount, so the error that escapes is the conversion error and not the chain
client's, and no transfer is submitted at all. -/
theorem sendTransaction_rejected_unconvertible_amount :
    badAmountView.toAddress = "0xABC" ∧ badAmountView.amount = "abc" ∧
      hostileWorld.sendTransaction (some "0xA11CE") "0xABC" "abc"
        = .error "insufficient funds" ∧
      run hostileWorld 1 (sendTransaction hostileWorld.toUtils (Sys.ofView badAmountView)) =
        { view := { badAmountView with sendTxnHash := "", sendTxnBtnDisabled := true,
                                       sendTxnBtnText := "Pending..." }
          outstanding := []
          trace := []
          uncaught := ["invalid number"] } ∧
      "insufficient funds" ∉
        (run hostileWorld 1
          (sendTransaction hostileWorld.toUtils (Sys.ofView badAmountView))).uncaught :=
  ⟨rfl, rfl, rfl, by decide, by decide⟩

/-- C10 as amended: with a recipient and an amount that `toWei` converts to `value`, when the
chain client rejects the transfer with `e`, the error propagates uncaught and
`sendTransaction` comes to rest in the state `disableSendTxnForm` produced: the
button disabled and labelled `Pending...`, the hash empty, recipient, amount and
balance as they were, and no call besides the rejected transfer (no balance
query).  From there no sequence of edits, presses and settling calls enables the
form again. -/
theorem sendTransaction_rejected (w : World) (v : AppState) (value e : String) (n : Nat)
    (hto : v.toAddress ≠ "") (hamount : v.amount ≠ "")
    (hwei : w.toWei v.amount = .ok value)
    (hsend : w.sendTransaction (publicAddress v.user) v.toAddress value = .error e) :
    run w (n + 1) (sendTransaction w.toUtils (Sys.ofView v)) =
        { view := (disableSendTxnForm (Sys.ofView v)).view
          outstanding := []
          trace := [.sendTransaction (publicAddress v.user) v.toAddress value]
          uncaught := [e] } ∧
      (disableSendTxnForm (Sys.ofView v)).view =
        { v with sendTxnBtnDisabled := true, sendTxnBtnText := "Pending...", sendTxnHash := "" } ∧
      ∀ actions : List Action,
        (advance w.toUtils (run w (n + 1) (sendTransaction w.toUtils (Sys.ofView v)))
          actions).view.sendTxnBtnDisabled = true := by
  have h0 : sendTransaction w.toUtils (Sys.ofView v) =
      { view := (disableSendTxnForm (Sys.ofView v)).view
        outstanding := [.sendTransaction v.user v.toAddress value]
        trace := [.sendTransaction (publicAddress v.user) v.toAddress value]
        uncaught := [] } := by
    simp [sendTransaction, Sys.ofView, hto, hamount, hwei, disableSendTxnForm, Sys.set, Sys.issue,
      Pending.call]
  have h1 : run w (n + 1) (sendTransaction w.toUtils (Sys.ofView v)) =
      { view := (disableSendTxnForm (Sys.ofView v)).view
        outstanding := []
        trace := [.sendTransaction (publicAddress v.user) v.toAddress value]
        uncaught := [e] } := by
    rw [h0, run_next w n _ _ (.sendTransaction v.user v.toAddress value) [] rfl rfl, run_rest]
    · simp [answer, hsend, sendTransactionResume, Sys.throw]
    · simp [answer, hsend, sendTransactionResume, Sys.throw]
  refine ⟨h1, by simp [disableSendTxnForm, Sys.ofView, Sys.set, setSendTxnHash,
    setSendTxnBtnDisabled, setSendTxnBtnText], fun actions => ?_⟩
  rw [h1]
  refine (advance_stuck w.toUtils _ actions ⟨?_, ?_⟩).1
  · simp [disableSendTxnForm, Sys.ofView, Sys.set, setSendTxnHash, setSendTxnBtnDisabled,
      setSendTxnBtnText]
  · simp [outstandingTransfers]

/-- Witness of the amended C10: the chain client rejects the transfer for lack of funds. -/
theorem sendTransaction_rejected_witness :
    run hostileWorld 1 (sendTransaction hostileWorld.toUtils (Sys.ofView filledView)) =
      { view := { filledView with sendTxnBtnDisabled := true, sendTxnBtnText := "Pending...",
                                  sendTxnHash := "" }
        outstanding := []
        trace := [.sendTransaction (some "0xA11CE") "0xABC" "1500000000000000000"]
        uncaught := ["insufficient funds"] } :=
  (sendTransaction_rejected hostileWorld filledView "1500000000000000000" "insufficient funds" 0
    (by decide) (by decide) rfl rfl).1

end MagicCelo
